import Mathlib

set_option maxRecDepth 8000

/-!
Shallow embedding of `serial.go` (package `serial`): a line-oriented
buffered interface over a raw serial byte stream.

Bytes are modelled as `Nat` (values 0..255; no arithmetic is performed on
them, only equality tests, so no wrap-around modelling is needed).
The `bytes.Buffer` receive buffer is modelled as a `List Nat` holding the
unread bytes in order.  Go errors produced by the source are modelled by
the inductive `SPError`; transport-level errors are carried abstractly by
`SPError.transport`.  The external `io.ReadWriteCloser` transport is
modelled by passing its `Write` behaviour as a function argument and by
recording the calls the code makes on it in a `List TransportCall`.
-/

/-- Errors produced by the Go source (each constructor corresponds to one
error-producing site, `fmt.Errorf` or a propagated library error). -/
inductive SPError where
  /-- The error returned when the handle is not open
  (Go: fmt.Errorf with the text Serial port is not open). -/
  | portNotOpen
  /-- io.EOF as returned by bytes.Buffer.ReadByte / ReadString when the
  delimiter is not found. -/
  | bufEOF
  /-- The error returned when the Pattern Wait timer fires
  (Go: fmt.Errorf with the text Timeout expired). -/
  | timeoutExpired
  /-- The error returned by Open when the handle is already open. -/
  | alreadyOpen (name : String)
  /-- The error returned by Open when openPort fails. -/
  | unableToOpen (name : String)
  /-- An abstract transport-level error, propagated from the device. -/
  | transport (code : Nat)
  /-- An abstract file system error, as returned by ioutil.ReadFile. -/
  | fileError (code : Nat)
deriving DecidableEq, Repr

/-- A call made on the device transport, recorded for reasoning about
which operations touch the transport. -/
inductive TransportCall where
  /-- A call port.Write(data). -/
  | write (data : List Nat)
  /-- A call port.Close(). -/
  | close
deriving DecidableEq, Repr

/-- The state of `SerialPort` (Go struct fields that the modelled
operations read or write; the transport handle itself is external). -/
structure SerialPort where
  /-- Field `name`. -/
  name : String
  /-- Field `baud`. -/
  baud : Int
  /-- Field `eol`: the configured end-of-line byte. -/
  eol : Nat
  /-- Field `buff`: unread bytes of the receive buffer, oldest first. -/
  buff : List Nat
  /-- Field `portIsOpen`. -/
  portIsOpen : Bool
deriving DecidableEq, Repr

/-- Go constant `EOL_DEFAULT = '\n'` (ASCII 10). -/
def EOL_DEFAULT : Nat := 10

/-- Go `New()`: the buffer is created over `make([]uint8, 256)`, i.e. it
starts holding 256 zero bytes of content. -/
def SerialPort.New : SerialPort :=
  { name := "", baud := 0, eol := EOL_DEFAULT,
    buff := List.replicate 256 0, portIsOpen := false }

/-- Go `bytes.Buffer.ReadString(delim)`: returns the bytes up to and
including the first occurrence of `delim` and the remaining buffer; if
`delim` does not occur, returns all buffered bytes together with `io.EOF`
and leaves the buffer empty (the bytes are consumed even on error). -/
def buffReadString (delim : Nat) : List Nat → List Nat × Option SPError × List Nat
  | [] => ([], some SPError.bufEOF, [])
  | b :: rest =>
    if b = delim then ([b], none, rest)
    else
      let r := buffReadString delim rest
      (b :: r.1, r.2.1, r.2.2)

/-- Go `removeEOL`: filters out every carriage-return byte (13) and every
newline byte (10) from the line; all other bytes are kept. -/
def removeEOL (line : List Nat) : List Nat :=
  line.filter (fun b => decide (b ≠ 13) && decide (b ≠ 10))

/-- Go `SerialPort.Read()`: pops the oldest buffered byte via
`buff.ReadByte()`; fails with `portNotOpen` when the handle is closed and
with `io.EOF` when the buffer is empty. -/
def SerialPort.Read (sp : SerialPort) : Except SPError Nat × SerialPort :=
  if sp.portIsOpen then
    match sp.buff with
    | [] => (Except.error SPError.bufEOF, sp)
    | b :: rest => (Except.ok b, { sp with buff := rest })
  else
    (Except.error SPError.portNotOpen, sp)

/-- Go `SerialPort.ReadLine()`: calls `buff.ReadString(sp.eol)`; on error
returns the error (discarding the partially read bytes, which
`ReadString` has already consumed from the buffer); on success returns
`removeEOL(line)`. -/
def SerialPort.ReadLine (sp : SerialPort) : Except SPError (List Nat) × SerialPort :=
  if sp.portIsOpen then
    let r := buffReadString sp.eol sp.buff
    match r.2.1 with
    | some e => (Except.error e, { sp with buff := r.2.2 })
    | none => (Except.ok (removeEOL r.1), { sp with buff := r.2.2 })
  else
    (Except.error SPError.portNotOpen, sp)

/-- Go `SerialPort.Available()`: `buff.Len()`, the number of unread
buffered bytes.  Note it performs no open-flag check. -/
def SerialPort.Available (sp : SerialPort) : Nat :=
  sp.buff.length

/-- Go `SerialPort.EOL(c)`: sets the configured end-of-line byte. -/
def SerialPort.EOL (sp : SerialPort) (c : Nat) : SerialPort :=
  { sp with eol := c }

/-- Go `SerialPort.Open(name, baud, timeout...)`: fails if already open;
otherwise calls the external `openPort` (modelled by the `openResult`
argument); on its failure returns an error and changes nothing; on
success stores name/baud, sets the open flag and resets the buffer. -/
def SerialPort.Open (sp : SerialPort) (name : String) (baud : Int)
    (openResult : Except SPError Unit) : Option SPError × SerialPort :=
  if sp.portIsOpen then
    (some (SPError.alreadyOpen name), sp)
  else
    match openResult with
    | Except.error _ => (some (SPError.unableToOpen name), sp)
    | Except.ok _ =>
      (none, { sp with name := name, baud := baud, portIsOpen := true, buff := [] })

/-- Go `SerialPort.Write(data)`: when open, forwards to `port.Write` and
returns its byte count and error unchanged; when closed, returns the
`portNotOpen` error without touching the transport.  The transport call
trace is returned alongside. -/
def SerialPort.Write (sp : SerialPort) (data : List Nat)
    (portWrite : List Nat → Nat × Option SPError) :
    (Nat × Option SPError) × List TransportCall :=
  if sp.portIsOpen then
    (portWrite data, [TransportCall.write data])
  else
    ((0, some SPError.portNotOpen), [])

/-- Go `SerialPort.Print(str)`: when open, calls `port.Write` and ignores
both its byte count and its error, returning nil; when closed, returns
the `portNotOpen` error without touching the transport. -/
def SerialPort.Print (sp : SerialPort) (str : List Nat)
    (portWrite : List Nat → Nat × Option SPError) :
    Option SPError × List TransportCall :=
  if sp.portIsOpen then
    let _ := portWrite str
    (none, [TransportCall.write str])
  else
    (some SPError.portNotOpen, [])

/-- Go `SerialPort.Println(str)`: `Print(str + "\r\n")` — the appended
tail is the hard-coded two bytes CR (13) LF (10), independent of the
configured end-of-line byte. -/
def SerialPort.Println (sp : SerialPort) (str : List Nat)
    (portWrite : List Nat → Nat × Option SPError) :
    Option SPError × List TransportCall :=
  sp.Print (str ++ [13, 10]) portWrite

/-- Go `SerialPort.Printf(format, args...)` in the zero-argument case:
the formatted string is `format` itself and the call is `Print(format)`.
(With arguments, `fmt.Sprintf` formatting is external string processing;
the forwarding behaviour is identical.) -/
def SerialPort.Printf (sp : SerialPort) (format : List Nat)
    (portWrite : List Nat → Nat × Option SPError) :
    Option SPError × List TransportCall :=
  sp.Print format portWrite

/-- Go `SendFile` chunk loop: `for sentBytes <= fileSize` sends slices of
at most 512 bytes, returning the first transport write error; on each
successful write advances `sentBytes` by 512.  Note the loop runs while
`sentBytes <= fileSize` (not `<`), so a final short or empty chunk is
always written.  The `fuel` argument only bounds the recursion; since
`sentBytes` grows by 512 per iteration, `file.length / 512 + 1`
iterations always reach the loop exit, so with the fuel supplied by
`SendFile` the fuel-exhausted branch is never taken. -/
def sendFileLoop (portWrite : List Nat → Nat × Option SPError)
    (file : List Nat) : Nat → Nat → Option SPError × List TransportCall
  | _, 0 => (none, [])
  | sentBytes, fuel + 1 =>
    if sentBytes ≤ file.length then
      let data :=
        if (file.drop sentBytes).length > 512 then
          (file.drop sentBytes).take 512
        else
          file.drop sentBytes
      match (portWrite data).2 with
      | some e => (some e, [TransportCall.write data])
      | none =>
        let r := sendFileLoop portWrite file (sentBytes + 512) fuel
        (r.1, TransportCall.write data :: r.2)
    else
      (none, [])

/-- Go `SerialPort.SendFile(filepath)`: reads the file (modelled by the
`fileResult` argument), then sends it in chunks via `port.Write`.  It
performs NO open-flag check: the transport is written to regardless of
`portIsOpen`. -/
def SerialPort.SendFile (_sp : SerialPort)
    (fileResult : Except SPError (List Nat))
    (portWrite : List Nat → Nat × Option SPError) :
    Option SPError × List TransportCall :=
  match fileResult with
  | Except.error e => (some e, [])
  | Except.ok file => sendFileLoop portWrite file 0 (file.length / 512 + 1)

/-!
Pattern Wait (`WaitForRegexTimeout`).  The Go code races a polling
goroutine (repeatedly `ReadLine`, regex-match each successful line,
deliver the first match on a one-slot channel and break) against
`time.After(timeout)`; on timeout the shared boolean `timeExpired` is set
and the polling loop observes it at its next top-of-loop check.
The schedule is abstracted by: `outcome i`, the result the i-th
`sp.ReadLine()` call returns; `flagAt`, the index of the first loop-guard
evaluation at which the write `timeExpired = true` is visible (the guard
of iteration `flagAt` reads true, earlier guards read false); and
`timerFirst`, which branch of the `select` fires first.
-/

/-- The polling goroutine of `WaitForRegexTimeout`: starting at iteration
`i`, loop `for !timeExpired`; each iteration takes the next `ReadLine`
outcome, ignores errors, and on a line whose match list is non-empty
delivers the first match and breaks.  Returns the delivered match (if
any) together with the number of loop iterations executed. -/
def pollRunAux (findAll : List Nat → List (List Nat))
    (outcome : Nat → Except SPError (List Nat)) :
    Nat → Nat → Option (List Nat) × Nat
  | 0, i => (none, i)
  | fuel + 1, i =>
    match outcome i with
    | Except.error _ => pollRunAux findAll outcome fuel (i + 1)
    | Except.ok line =>
      match findAll line with
      | [] => pollRunAux findAll outcome fuel (i + 1)
      | m :: _ => (some m, i + 1)

/-- The polling goroutine starting from iteration `i`: the guard of
iteration `j` observes `timeExpired = true` exactly when `flagAt ≤ j`,
so the loop has `flagAt - i` iterations of guard-allowed budget left. -/
def pollRun (findAll : List Nat → List (List Nat))
    (outcome : Nat → Except SPError (List Nat)) (i flagAt : Nat) :
    Option (List Nat) × Nat :=
  pollRunAux findAll outcome (flagAt - i) i

/-- Go `SerialPort.WaitForRegexTimeout(exp, timeout)`: fails with
`portNotOpen` when closed; otherwise the `select` returns the polled
match when the polling branch delivers before the timer fires, and the
`Timeout expired` error when the timer fires first (or when no match is
ever delivered). -/
def SerialPort.WaitForRegexTimeout (sp : SerialPort)
    (findAll : List Nat → List (List Nat))
    (outcome : Nat → Except SPError (List Nat))
    (flagAt : Nat) (timerFirst : Bool) : Except SPError (List Nat) :=
  if sp.portIsOpen then
    if timerFirst then
      Except.error SPError.timeoutExpired
    else
      match (pollRun findAll outcome 0 flagAt).1 with
      | some m => Except.ok m
      | none => Except.error SPError.timeoutExpired
  else
    Except.error SPError.portNotOpen

/-- Scanning core of literal-pattern matching: at each position, if the
non-empty pattern is a prefix of the remaining text, record a match and
continue after it (non-overlapping); otherwise advance one byte.  The
fuel `s.length` suffices because every step shortens `s`. -/
def findAllLiteralAux (pat : List Nat) : Nat → List Nat → List (List Nat)
  | 0, _ => []
  | _, [] => []
  | fuel + 1, b :: rest =>
    if (b :: rest).take pat.length = pat then
      pat :: findAllLiteralAux pat fuel ((b :: rest).drop pat.length)
    else
      findAllLiteralAux pat fuel rest

/-- Go `regexp.FindAllString(s, -1)` restricted to a non-empty literal
pattern: the leftmost non-overlapping occurrences of `pat` in `s`, in
order. -/
def findAllLiteral (pat : List Nat) (s : List Nat) : List (List Nat) :=
  if pat = [] then [] else findAllLiteralAux pat s.length s

/-!
Buffer traffic model for the loss/duplication/reordering claim.  A run
interleaves Reader-Loop appends (`sp.buff.Write(rxBuff[:n])` in
`readSerialPort`) with caller reads (`Read` / `ReadLine`), and records
three byte streams: everything appended, everything removed from the
buffer, and everything returned to callers by successful reads.
-/

/-- One buffer-affecting event: a Reader-Loop append of a received chunk,
or a caller read. -/
inductive BufOp where
  /-- Reader Loop appends a received chunk to the buffer. -/
  | append (chunk : List Nat)
  /-- Caller invokes `SerialPort.Read()`. -/
  | readByte
  /-- Caller invokes `SerialPort.ReadLine()`. -/
  | readLine
deriving DecidableEq, Repr

/-- Run-state: the port plus the three recorded streams. -/
structure RunState where
  /-- The port. -/
  sp : SerialPort
  /-- All bytes ever appended by the Reader Loop, in order. -/
  appended : List Nat
  /-- All bytes ever removed from the receive buffer, in order. -/
  removed : List Nat
  /-- Concatenation of the bytes returned by successful reads. -/
  returned : List Nat
deriving DecidableEq, Repr

/-- The front segment of the buffer that a read consumed: buffer reads
remove bytes from the front, so the consumed bytes are the first
`before - after` bytes of the pre-state buffer. -/
def consumedPrefix (before after : SerialPort) : List Nat :=
  before.buff.take (before.buff.length - after.buff.length)

/-- One step of the buffer-traffic run. -/
def stepOp (s : RunState) : BufOp → RunState
  | BufOp.append c =>
    { s with sp := { s.sp with buff := s.sp.buff ++ c },
             appended := s.appended ++ c }
  | BufOp.readByte =>
    let r := s.sp.Read
    { sp := r.2, appended := s.appended,
      removed := s.removed ++ consumedPrefix s.sp r.2,
      returned := s.returned ++ (match r.1 with
        | Except.ok b => [b]
        | Except.error _ => []) }
  | BufOp.readLine =>
    let r := s.sp.ReadLine
    { sp := r.2, appended := s.appended,
      removed := s.removed ++ consumedPrefix s.sp r.2,
      returned := s.returned ++ (match r.1 with
        | Except.ok l => l
        | Except.error _ => []) }

/-- Run a sequence of buffer events. -/
def runOps (s : RunState) : List BufOp → RunState
  | [] => s
  | op :: ops => runOps (stepOp s op) ops

/-- Initial run-state: an open port with an empty (reset) buffer, as
after a successful `Open`. -/
def initRun : RunState :=
  { sp := { SerialPort.New with portIsOpen := true, buff := [] },
    appended := [], removed := [], returned := [] }

/-!
Interleaving model for the Reader-Loop / `Close` race on the byte-relay
channel `rxChar`.  The Reader Loop executes, per received byte, the guard
`if sp.portIsOpen` immediately followed (when the guard saw true) by the
send `sp.rxChar <- b`; `Close` executes `sp.portIsOpen = false`
immediately followed by `close(sp.rxChar)`.  An execution is an
interleaving of the two program-ordered event sequences.
-/

/-- An atomic event of the Reader-Loop / Close race. -/
inductive REv where
  /-- Reader Loop evaluates the guard `if sp.portIsOpen` before a send. -/
  | rcheck
  /-- Reader Loop executes the channel send (it does so exactly when the
  preceding guard evaluation saw the flag true). -/
  | rsend
  /-- Close executes `sp.portIsOpen = false`. -/
  | cflag
  /-- Close executes `close(sp.rxChar)`. -/
  | cclose
deriving DecidableEq, Repr

/-- Shared state of the race. -/
structure RaceState where
  /-- Field `sp.portIsOpen`. -/
  flag : Bool
  /-- Whether `close(sp.rxChar)` has executed. -/
  chanClosed : Bool
  /-- The value the Reader Loop's last guard evaluation read. -/
  observedOpen : Bool
  /-- Set when a send executes while the channel is closed (in Go this is
  a runtime panic: send on closed channel). -/
  sentOnClosed : Bool
deriving DecidableEq, Repr

/-- Effect of one atomic event. -/
def raceStep (s : RaceState) : REv → RaceState
  | REv.rcheck => { s with observedOpen := s.flag }
  | REv.rsend =>
    if s.observedOpen then
      { s with sentOnClosed := s.sentOnClosed || s.chanClosed }
    else
      s
  | REv.cflag => { s with flag := false }
  | REv.cclose => { s with chanClosed := true }

/-- Run a trace of atomic events. -/
def raceRun (s : RaceState) : List REv → RaceState
  | [] => s
  | e :: t => raceRun (raceStep s e) t

/-- State while the port is open and the Reader Loop is between bytes. -/
def raceInit : RaceState :=
  { flag := true, chanClosed := false, observedOpen := false,
    sentOnClosed := false }

/-- Position of the first occurrence of `e` in `t` (length of `t` when
absent). -/
def posOf (e : REv) : List REv → Nat
  | [] => 0
  | x :: xs => if x = e then 0 else posOf e xs + 1

/-- Whether a trace is a legal interleaving of the Reader Loop's
program-ordered pair [rcheck, rsend] with Close's program-ordered pair
[cflag, cclose]: each event occurs exactly once, the guard evaluation
precedes the send, and the flag write precedes the channel close. -/
def isInterleaving (t : List REv) : Bool :=
  t.length = 4 &&
  (t.count REv.rcheck = 1 && t.count REv.rsend = 1 &&
    t.count REv.cflag = 1 && t.count REv.cclose = 1) &&
  posOf REv.rcheck t < posOf REv.rsend t &&
  posOf REv.cflag t < posOf REv.cclose t

/-!
Helper lemmas.
-/

/-- A `ReadString` call splits the buffer: consumed bytes followed by the
remaining bytes recompose the original buffer. -/
theorem buffReadString_split (d : Nat) (buf : List Nat) :
    (buffReadString d buf).1 ++ (buffReadString d buf).2.2 = buf := by
  induction buf with
  | nil => rfl
  | cons b rest ih =>
    by_cases h : b = d
    · simp [buffReadString, h]
    · simp [buffReadString, h, ih]

/-- When the delimiter is absent, `ReadString` consumes the whole buffer
and reports `io.EOF`. -/
theorem buffReadString_not_found (d : Nat) (buf : List Nat) (h : d ∉ buf) :
    buffReadString d buf = (buf, some SPError.bufEOF, []) := by
  induction buf with
  | nil => rfl
  | cons b rest ih =>
    have hb : b ≠ d := fun e => h (e ▸ List.mem_cons_self b rest)
    have hrest : d ∉ rest := fun e => h (List.mem_cons_of_mem b e)
    simp [buffReadString, hb, ih hrest]

/-- When the delimiter occurs, `ReadString` consumes exactly through its
first occurrence and leaves the rest. -/
theorem buffReadString_found (d : Nat) (pre post : List Nat) (h : d ∉ pre) :
    buffReadString d (pre ++ d :: post) = (pre ++ [d], none, post) := by
  induction pre with
  | nil => simp [buffReadString]
  | cons b rest ih =>
    have hb : b ≠ d := fun e => h (e ▸ List.mem_cons_self b rest)
    have hrest : d ∉ rest := fun e => h (List.mem_cons_of_mem b e)
    simp [buffReadString, hb, ih hrest, fun e : b = d => hb e]

/-- When a read removed the front prefix `p` of the buffer,
`consumedPrefix` recovers exactly `p`. -/
theorem consumedPrefix_eq (before after : SerialPort) (p : List Nat)
    (h : before.buff = p ++ after.buff) : consumedPrefix before after = p := by
  unfold consumedPrefix
  rw [h, List.length_append, Nat.add_sub_cancel]
  exact List.take_left p after.buff

/-- One run step preserves the buffer-conservation invariant: everything
removed so far followed by the current buffer content is exactly
everything appended so far. -/
theorem stepOp_inv (s : RunState) (op : BufOp)
    (h : s.removed ++ s.sp.buff = s.appended) :
    (stepOp s op).removed ++ (stepOp s op).sp.buff = (stepOp s op).appended := by
  cases op with
  | append c =>
    simp only [stepOp]
    rw [← List.append_assoc, h]
  | readByte =>
    simp only [stepOp]
    by_cases ho : s.sp.portIsOpen
    · cases hb : s.sp.buff with
      | nil =>
        have hr : s.sp.Read = (Except.error SPError.bufEOF, s.sp) := by
          simp [SerialPort.Read, ho, hb]
        rw [hr]
        have hc : consumedPrefix s.sp s.sp = [] :=
          consumedPrefix_eq s.sp s.sp [] (by simp)
        simpa [hc] using h
      | cons b rest =>
        have hr : s.sp.Read = (Except.ok b, { s.sp with buff := rest }) := by
          simp [SerialPort.Read, ho, hb]
        rw [hr]
        have hc : consumedPrefix s.sp { s.sp with buff := rest } = [b] :=
          consumedPrefix_eq _ _ [b] (by simp [hb])
        simp only [hc]
        rw [List.append_assoc, ← h, hb]
        simp
    · have hr : s.sp.Read = (Except.error SPError.portNotOpen, s.sp) := by
        simp [SerialPort.Read, ho]
      rw [hr]
      have hc : consumedPrefix s.sp s.sp = [] :=
        consumedPrefix_eq s.sp s.sp [] (by simp)
      simpa [hc] using h
  | readLine =>
    simp only [stepOp]
    by_cases ho : s.sp.portIsOpen
    · have hsplit := buffReadString_split s.sp.eol s.sp.buff
      cases he : (buffReadString s.sp.eol s.sp.buff).2.1 with
      | some e =>
        have hr : s.sp.ReadLine =
            (Except.error e,
              { s.sp with buff := (buffReadString s.sp.eol s.sp.buff).2.2 }) := by
          simp [SerialPort.ReadLine, ho, he]
        rw [hr]
        have hc : consumedPrefix s.sp
            { s.sp with buff := (buffReadString s.sp.eol s.sp.buff).2.2 }
            = (buffReadString s.sp.eol s.sp.buff).1 :=
          consumedPrefix_eq _ _ _ (by simp [hsplit])
        simp only [hc]
        rw [List.append_assoc, hsplit, h]
      | none =>
        have hr : s.sp.ReadLine =
            (Except.ok (removeEOL (buffReadString s.sp.eol s.sp.buff).1),
              { s.sp with buff := (buffReadString s.sp.eol s.sp.buff).2.2 }) := by
          simp [SerialPort.ReadLine, ho, he]
        rw [hr]
        have hc : consumedPrefix s.sp
            { s.sp with buff := (buffReadString s.sp.eol s.sp.buff).2.2 }
            = (buffReadString s.sp.eol s.sp.buff).1 :=
          consumedPrefix_eq _ _ _ (by simp [hsplit])
        simp only [hc]
        rw [List.append_assoc, hsplit, h]
    · have hr : s.sp.ReadLine = (Except.error SPError.portNotOpen, s.sp) := by
        simp [SerialPort.ReadLine, ho]
      rw [hr]
      have hc : consumedPrefix s.sp s.sp = [] :=
        consumedPrefix_eq s.sp s.sp [] (by simp)
      simpa [hc] using h

/-- The buffer-conservation invariant holds along any run. -/
theorem runOps_inv (ops : List BufOp) (s : RunState)
    (h : s.removed ++ s.sp.buff = s.appended) :
    (runOps s ops).removed ++ (runOps s ops).sp.buff = (runOps s ops).appended := by
  induction ops generalizing s with
  | nil => exact h
  | cons op ops ih => exact ih (stepOp s op) (stepOp_inv s op h)

/-- The delivery decision of one polling iteration: `none` when the
`ReadLine` outcome is an error or the line has no match, otherwise the
first match of the line. -/
def matchAt (findAll : List Nat → List (List Nat))
    (outcome : Nat → Except SPError (List Nat)) (j : Nat) :
    Option (List Nat) :=
  match outcome j with
  | Except.error _ => none
  | Except.ok line =>
    match findAll line with
    | [] => none
    | m :: _ => some m

/-- If iterations `i .. i+k-1` deliver nothing and iteration `i+k`
delivers `m`, then with more than `k` iterations of guard budget the
polling loop delivers `m` and stops after iteration `i+k`. -/
theorem pollRunAux_delivers (findAll : List Nat → List (List Nat))
    (outcome : Nat → Except SPError (List Nat)) (m : List Nat) :
    ∀ fuel i k,
      (∀ j, i ≤ j → j < i + k → matchAt findAll outcome j = none) →
      matchAt findAll outcome (i + k) = some m → k < fuel →
      pollRunAux findAll outcome fuel i = (some m, i + k + 1) := by
  intro fuel
  induction fuel with
  | zero => intro i k _ _ hk; omega
  | succ fuel ih =>
    intro i k hnone hm hk
    cases k with
    | zero =>
      simp only [Nat.add_zero] at hm
      cases ho : outcome i with
      | error e =>
        simp only [matchAt, ho] at hm
        exact Option.noConfusion hm
      | ok line =>
        cases hf : findAll line with
        | nil =>
          simp only [matchAt, ho, hf] at hm
          exact Option.noConfusion hm
        | cons m0 ms =>
          simp only [matchAt, ho, hf, Option.some.injEq] at hm
          simp [pollRunAux, ho, hf, hm]
    | succ k =>
      have h0 : matchAt findAll outcome i = none :=
        hnone i (Nat.le_refl i) (by omega)
      have hnone2 : ∀ j, i + 1 ≤ j → j < i + 1 + k →
          matchAt findAll outcome j = none := by
        intro j h1 h2
        exact hnone j (by omega) (by omega)
      have hm2 : matchAt findAll outcome (i + 1 + k) = some m := by
        have e : i + 1 + k = i + (k + 1) := by omega
        rw [e]; exact hm
      have htail := ih (i + 1) k hnone2 hm2 (by omega)
      have estep : pollRunAux findAll outcome (fuel + 1) i =
          pollRunAux findAll outcome fuel (i + 1) := by
        cases ho : outcome i with
        | error e => simp [pollRunAux, ho]
        | ok line =>
          cases hf : findAll line with
          | nil => simp [pollRunAux, ho, hf]
          | cons m0 ms =>
            simp only [matchAt, ho, hf] at h0
            exact Option.noConfusion h0
      rw [estep, htail]
      have e2 : i + 1 + k + 1 = i + (k + 1) + 1 := by omega
      rw [e2]

/-- The polling loop never executes an iteration whose guard observes the
expired flag: starting at iteration `i` with `fuel` guard-allowed
iterations, the loop stops no later than iteration index `i + fuel`. -/
theorem pollRunAux_count (findAll : List Nat → List (List Nat))
    (outcome : Nat → Except SPError (List Nat)) :
    ∀ fuel i, (pollRunAux findAll outcome fuel i).2 ≤ i + fuel := by
  intro fuel
  induction fuel with
  | zero => intro i; simp [pollRunAux]
  | succ fuel ih =>
    intro i
    cases ho : outcome i with
    | error e =>
      have := ih (i + 1)
      simp only [pollRunAux, ho]
      omega
    | ok line =>
      cases hf : findAll line with
      | nil =>
        have := ih (i + 1)
        simp only [pollRunAux, ho, hf]
        omega
      | cons m0 ms =>
        simp only [pollRunAux, ho, hf]
        omega

/-!
Claim theorems.
-/

/-- C1 (amended): on an open handle whose buffer does not contain the
configured end-of-line byte, `ReadLine` fails with the buffer EOF error
but consumes every buffered byte — the buffer is left empty, not
unchanged; a second `ReadLine` with no data appended in between fails
the same way, with the buffer still empty. -/
theorem C1_amended (sp : SerialPort) (hopen : sp.portIsOpen = true)
    (hno : sp.eol ∉ sp.buff) :
    sp.ReadLine.1 = Except.error SPError.bufEOF ∧
    sp.ReadLine.2.buff = [] ∧
    sp.ReadLine.2.ReadLine.1 = Except.error SPError.bufEOF ∧
    sp.ReadLine.2.ReadLine.2.buff = [] := by
  have h1 := buffReadString_not_found sp.eol sp.buff hno
  have hr : sp.ReadLine = (Except.error SPError.bufEOF, { sp with buff := [] }) := by
    simp [SerialPort.ReadLine, hopen, h1]
  rw [hr]
  refine ⟨rfl, rfl, ?_, ?_⟩ <;>
    simp [SerialPort.ReadLine, hopen, buffReadString]

/-- C1 (counterexample to the claim as stated): on an open handle with
buffered content `[97]` (no end-of-line byte present), `ReadLine` fails,
yet the unread length drops from 1 to 0 — the byte was consumed, so the
buffer is NOT left unchanged. -/
theorem C1_counterexample :
    ({ SerialPort.New with portIsOpen := true, buff := [97] } : SerialPort).Available = 1 ∧
    ({ SerialPort.New with portIsOpen := true, buff := [97] } : SerialPort).ReadLine.1
      = Except.error SPError.bufEOF ∧
    ({ SerialPort.New with portIsOpen := true, buff := [97] } : SerialPort).ReadLine.2.Available
      = 0 :=
  ⟨rfl, rfl, rfl⟩

/-- C1 witness: the amended statement evaluated on an open handle with
buffer `[98, 99]` and the default end-of-line byte. -/
theorem C1_witness :
    ({ SerialPort.New with portIsOpen := true, buff := [98, 99] } : SerialPort).portIsOpen
      = true ∧
    ({ SerialPort.New with portIsOpen := true, buff := [98, 99] } : SerialPort).eol
      ∉ ({ SerialPort.New with portIsOpen := true, buff := [98, 99] } : SerialPort).buff ∧
    (({ SerialPort.New with portIsOpen := true, buff := [98, 99] } : SerialPort).ReadLine.1
        = Except.error SPError.bufEOF ∧
      ({ SerialPort.New with portIsOpen := true, buff := [98, 99] } : SerialPort).ReadLine.2.buff
        = [] ∧
      ({ SerialPort.New with portIsOpen := true, buff := [98, 99] } : SerialPort).ReadLine.2.ReadLine.1
        = Except.error SPError.bufEOF ∧
      ({ SerialPort.New with portIsOpen := true, buff := [98, 99] } : SerialPort).ReadLine.2.ReadLine.2.buff
        = []) :=
  ⟨rfl, by decide, C1_amended _ rfl (by decide)⟩

/-- C2 (amended): along any sequence of Reader-Loop appends and caller
reads starting from an open port with a reset buffer, the bytes removed
from the receive buffer, followed by its remaining content, are exactly
the appended bytes in order — no byte is lost, duplicated or reordered
at the buffer level.  (The claim as stated, about the bytes returned by
successful reads, fails: `ReadLine` strips CR/LF from the returned text
and a failed `ReadLine` consumes bytes without returning them.) -/
theorem C2_amended (ops : List BufOp) :
    (runOps initRun ops).removed ++ (runOps initRun ops).sp.buff
      = (runOps initRun ops).appended :=
  runOps_inv ops initRun rfl

/-- C2 (counterexample to the claim as stated): appending `[97, 10]` and
performing one successful `ReadLine` leaves the buffer empty, yet the
concatenation of returned bytes is `[97]`, not the appended `[97, 10]` —
the newline byte was removed but never returned. -/
theorem C2_counterexample :
    (runOps initRun [BufOp.append [97, 10], BufOp.readLine]).sp.buff = [] ∧
    (runOps initRun [BufOp.append [97, 10], BufOp.readLine]).returned = [97] ∧
    (runOps initRun [BufOp.append [97, 10], BufOp.readLine]).appended = [97, 10] ∧
    (runOps initRun [BufOp.append [97, 10], BufOp.readLine]).returned
      ≠ (runOps initRun [BufOp.append [97, 10], BufOp.readLine]).appended :=
  ⟨by decide, by decide, by decide, by decide⟩

/-- C3 (amended): every modelled public operation except `SendFile`
fails with `portNotOpen` on a closed handle and performs no transport
call; this covers `Write`, `Print`, `Println`, `Printf`, `Read`,
`ReadLine` and `WaitForRegexTimeout`.  (`SendFile` performs no open-flag
check at all; see the counterexample.) -/
theorem C3_amended (sp : SerialPort) (hclosed : sp.portIsOpen = false)
    (data : List Nat) (wr : List Nat → Nat × Option SPError)
    (findAll : List Nat → List (List Nat))
    (outcome : Nat → Except SPError (List Nat))
    (flagAt : Nat) (timerFirst : Bool) :
    sp.Write data wr = ((0, some SPError.portNotOpen), []) ∧
    sp.Print data wr = (some SPError.portNotOpen, []) ∧
    sp.Println data wr = (some SPError.portNotOpen, []) ∧
    sp.Printf data wr = (some SPError.portNotOpen, []) ∧
    sp.Read = (Except.error SPError.portNotOpen, sp) ∧
    sp.ReadLine = (Except.error SPError.portNotOpen, sp) ∧
    sp.WaitForRegexTimeout findAll outcome flagAt timerFirst
      = Except.error SPError.portNotOpen := by
  simp [SerialPort.Write, SerialPort.Print, SerialPort.Println, SerialPort.Printf,
    SerialPort.Read, SerialPort.ReadLine, SerialPort.WaitForRegexTimeout, hclosed]

/-- C3 (counterexample to the claim as stated): on a closed, freshly
constructed handle, `SendFile` with a readable one-byte file does NOT
fail with `portNotOpen`; it performs a transport write and returns nil. -/
theorem C3_counterexample :
    SerialPort.New.portIsOpen = false ∧
    SerialPort.New.SendFile (Except.ok [1]) (fun d => (d.length, none))
      = (none, [TransportCall.write [1]]) ∧
    (none : Option SPError) ≠ some SPError.portNotOpen :=
  ⟨rfl, rfl, by decide⟩

/-- C3 witness: the amended statement evaluated on the closed fresh
handle with concrete arguments. -/
theorem C3_witness :
    SerialPort.New.portIsOpen = false ∧
    (SerialPort.New.Write [1] (fun d => (d.length, none))
        = ((0, some SPError.portNotOpen), []) ∧
      SerialPort.New.Print [1] (fun d => (d.length, none))
        = (some SPError.portNotOpen, []) ∧
      SerialPort.New.Println [1] (fun d => (d.length, none))
        = (some SPError.portNotOpen, []) ∧
      SerialPort.New.Printf [1] (fun d => (d.length, none))
        = (some SPError.portNotOpen, []) ∧
      SerialPort.New.Read = (Except.error SPError.portNotOpen, SerialPort.New) ∧
      SerialPort.New.ReadLine = (Except.error SPError.portNotOpen, SerialPort.New) ∧
      SerialPort.New.WaitForRegexTimeout (findAllLiteral [79, 75])
          (fun _ => Except.error SPError.bufEOF) 3 false
        = Except.error SPError.portNotOpen) :=
  ⟨rfl, C3_amended SerialPort.New rfl [1] (fun d => (d.length, none))
    (findAllLiteral [79, 75]) (fun _ => Except.error SPError.bufEOF) 3 false⟩

/-- C4 (confirmed): on an open handle, if the polling branch's iteration
`i` is the first to extract a line with at least one pattern match, and
the guard of every iteration up to `i` still observes the timeout flag
unset (`i < flagAt`) while the timer has not fired first, then
`WaitForRegexTimeout` returns success with the first non-overlapping
match of that line (the head of the match list the loop computes). -/
theorem C4_theorem (sp : SerialPort) (findAll : List Nat → List (List Nat))
    (outcome : Nat → Except SPError (List Nat)) (flagAt i : Nat) (m : List Nat)
    (hopen : sp.portIsOpen = true)
    (hbefore : ∀ j, j < i → matchAt findAll outcome j = none)
    (hmatch : matchAt findAll outcome i = some m)
    (hflag : i < flagAt) :
    sp.WaitForRegexTimeout findAll outcome flagAt false = Except.ok m := by
  have hp : pollRun findAll outcome 0 flagAt = (some m, i + 1) := by
    unfold pollRun
    have h := pollRunAux_delivers findAll outcome m (flagAt - 0) 0 i
      (fun j _ h2 => hbefore j (by omega))
      (by simpa using hmatch) (by omega)
    simpa using h
  simp [SerialPort.WaitForRegexTimeout, hopen, hp]

/-- C4 witness: pattern OK (bytes [79, 75]) fed the line OK+LF (buffered
bytes [79, 75, 10]); `ReadLine` extracts [79, 75], the literal matcher
finds one match, and the call returns [79, 75]. -/
theorem C4_witness :
    ({ SerialPort.New with portIsOpen := true, buff := [79, 75, 10] } : SerialPort).ReadLine.1
      = Except.ok [79, 75] ∧
    ({ SerialPort.New with portIsOpen := true, buff := [79, 75, 10] } : SerialPort).portIsOpen
      = true ∧
    matchAt (findAllLiteral [79, 75]) (fun _ => Except.ok [79, 75]) 0 = some [79, 75] ∧
    0 < 1 ∧
    ({ SerialPort.New with portIsOpen := true, buff := [79, 75, 10] } : SerialPort).WaitForRegexTimeout
        (findAllLiteral [79, 75]) (fun _ => Except.ok [79, 75]) 1 false
      = Except.ok [79, 75] :=
  ⟨rfl, rfl, rfl, by decide,
    C4_theorem _ _ _ 1 0 [79, 75] rfl
      (fun j hj => absurd hj (Nat.not_lt_zero j)) rfl (by decide)⟩

/-- C5 (confirmed): on an open handle, when the timer branch fires first
the call returns the Timeout error — for every possible polling
schedule, so no match result reaches the caller after the timeout has
resolved — and the polling loop never begins an iteration once its guard
observes the expired flag: starting from iteration 0 with the flag
becoming visible at guard check `flagAt`, the loop executes at most
`flagAt` iterations (the iteration in flight when the flag is set is the
only one that can still complete). -/
theorem C5_theorem (sp : SerialPort) (hopen : sp.portIsOpen = true)
    (findAll : List Nat → List (List Nat))
    (outcome : Nat → Except SPError (List Nat)) (flagAt : Nat) :
    sp.WaitForRegexTimeout findAll outcome flagAt true
      = Except.error SPError.timeoutExpired ∧
    (pollRun findAll outcome 0 flagAt).2 ≤ flagAt := by
  constructor
  · simp [SerialPort.WaitForRegexTimeout, hopen]
  · unfold pollRun
    have h := pollRunAux_count findAll outcome (flagAt - 0) 0
    simpa using h

/-- C5 witness: a never-matching schedule with the flag visible from
guard check 2; the call returns the Timeout error and the loop executes
at most 2 iterations. -/
theorem C5_witness :
    ({ SerialPort.New with portIsOpen := true } : SerialPort).portIsOpen = true ∧
    ({ SerialPort.New with portIsOpen := true } : SerialPort).WaitForRegexTimeout
        (findAllLiteral [79, 75]) (fun _ => Except.error SPError.bufEOF) 2 true
      = Except.error SPError.timeoutExpired ∧
    (pollRun (findAllLiteral [79, 75]) (fun _ => Except.error SPError.bufEOF) 0 2).2 ≤ 2 :=
  ⟨rfl, (C5_theorem ({ SerialPort.New with portIsOpen := true } : SerialPort) rfl
      (findAllLiteral [79, 75]) (fun _ => Except.error SPError.bufEOF) 2).1,
    (C5_theorem ({ SerialPort.New with portIsOpen := true } : SerialPort) rfl
      (findAllLiteral [79, 75]) (fun _ => Except.error SPError.bufEOF) 2).2⟩

/-- C6 (amended): on an open handle whose buffer is `pre ++ eol :: post`
with no earlier occurrence of the configured end-of-line byte, a
successful `ReadLine` removes the bytes up to and including that first
occurrence, leaves `post` unread, and returns the removed bytes with all
CR (13) and LF (10) bytes stripped; the configured end-of-line byte
itself is stripped only when it is CR or LF, and otherwise remains in
the returned text. -/
theorem C6_amended (sp : SerialPort) (pre post : List Nat)
    (hopen : sp.portIsOpen = true) (hpre : sp.eol ∉ pre)
    (hbuf : sp.buff = pre ++ sp.eol :: post) :
    sp.ReadLine.1 = Except.ok
      (pre.filter (fun b => decide (b ≠ 13) && decide (b ≠ 10)) ++
        (if sp.eol = 13 ∨ sp.eol = 10 then [] else [sp.eol])) ∧
    sp.ReadLine.2.buff = post := by
  have h1 := buffReadString_found sp.eol pre post hpre
  have hr : sp.ReadLine =
      (Except.ok (removeEOL (pre ++ [sp.eol])), { sp with buff := post }) := by
    simp [SerialPort.ReadLine, hopen, hbuf, h1]
  rw [hr]
  refine ⟨?_, rfl⟩
  simp only [removeEOL, List.filter_append]
  congr 1
  by_cases h13 : sp.eol = 13
  · simp [h13]
  · by_cases h10 : sp.eol = 10
    · simp [h10]
    · simp [List.filter, h13, h10]

/-- C6 (counterexample to the claim as stated): with the end-of-line
byte configured to 9 (TAB) and buffer [97, 98, 9, 99, 100], `ReadLine`
returns [97, 98, 9] — the configured end-of-line byte is NOT stripped
from the returned text — while leaving [99, 100] unread. -/
theorem C6_counterexample :
    ({ SerialPort.New with portIsOpen := true, eol := 9, buff := [97, 98, 9, 99, 100] } : SerialPort).ReadLine.1
      = Except.ok [97, 98, 9] ∧
    (9 : Nat) ∈ [97, 98, 9] ∧
    ({ SerialPort.New with portIsOpen := true, eol := 9, buff := [97, 98, 9, 99, 100] } : SerialPort).ReadLine.2.buff
      = [99, 100] :=
  ⟨rfl, by decide, rfl⟩

/-- C6 witness: the spec example — buffered abc CR LF def (bytes
[97, 98, 99, 13, 10, 100, 101, 102]) with the default delimiter yields
abc ([97, 98, 99]) and leaves def ([100, 101, 102]) unread. -/
theorem C6_witness :
    ({ SerialPort.New with portIsOpen := true, buff := [97, 98, 99, 13, 10, 100, 101, 102] } : SerialPort).portIsOpen
      = true ∧
    ({ SerialPort.New with portIsOpen := true, buff := [97, 98, 99, 13, 10, 100, 101, 102] } : SerialPort).eol
      ∉ [97, 98, 99, 13] ∧
    ({ SerialPort.New with portIsOpen := true, buff := [97, 98, 99, 13, 10, 100, 101, 102] } : SerialPort).ReadLine.1
      = Except.ok [97, 98, 99] ∧
    ({ SerialPort.New with portIsOpen := true, buff := [97, 98, 99, 13, 10, 100, 101, 102] } : SerialPort).ReadLine.2.buff
      = [100, 101, 102] :=
  ⟨rfl, by decide,
    (C6_amended _ [97, 98, 99, 13] [100, 101, 102] rfl (by decide) rfl).1,
    (C6_amended _ [97, 98, 99, 13] [100, 101, 102] rfl (by decide) rfl).2⟩

/-- C7 (amended): on an open handle only `Write` returns the transport
write result — byte count and error — unchanged; `Print`, `Println` and
`Printf` invoke the transport but discard its error and return nil, so
the write path does silently discard transport errors except through
`Write`. -/
theorem C7_amended (sp : SerialPort) (hopen : sp.portIsOpen = true)
    (data : List Nat) (wr : List Nat → Nat × Option SPError) :
    (sp.Write data wr).1 = wr data ∧
    (sp.Write data wr).2 = [TransportCall.write data] ∧
    (sp.Print data wr).1 = none ∧
    (sp.Println data wr).1 = none ∧
    (sp.Printf data wr).1 = none := by
  simp [SerialPort.Write, SerialPort.Print, SerialPort.Println, SerialPort.Printf,
    hopen]

/-- C7 (counterexample to the claim as stated): with a transport whose
write fails with a transport error, `Print` on an open handle still
returns nil — the transport error is silently discarded. -/
theorem C7_counterexample :
    ((fun (_ : List Nat) => ((0 : Nat), some (SPError.transport 7))) [1]).2
      = some (SPError.transport 7) ∧
    ({ SerialPort.New with portIsOpen := true } : SerialPort).Print [1]
        (fun _ => ((0 : Nat), some (SPError.transport 7)))
      = (none, [TransportCall.write [1]]) :=
  ⟨rfl, rfl⟩

/-- C7 witness: the amended statement evaluated on an open handle with a
failing transport write. -/
theorem C7_witness :
    ({ SerialPort.New with portIsOpen := true } : SerialPort).portIsOpen = true ∧
    (({ SerialPort.New with portIsOpen := true } : SerialPort).Write [2]
          (fun _ => ((0 : Nat), some (SPError.transport 9)))).1
        = (fun (_ : List Nat) => ((0 : Nat), some (SPError.transport 9))) [2] ∧
    (({ SerialPort.New with portIsOpen := true } : SerialPort).Write [2]
          (fun _ => ((0 : Nat), some (SPError.transport 9)))).2
        = [TransportCall.write [2]] ∧
    (({ SerialPort.New with portIsOpen := true } : SerialPort).Print [2]
          (fun _ => ((0 : Nat), some (SPError.transport 9)))).1 = none ∧
    (({ SerialPort.New with portIsOpen := true } : SerialPort).Println [2]
          (fun _ => ((0 : Nat), some (SPError.transport 9)))).1 = none ∧
    (({ SerialPort.New with portIsOpen := true } : SerialPort).Printf [2]
          (fun _ => ((0 : Nat), some (SPError.transport 9)))).1 = none :=
  ⟨rfl, C7_amended ({ SerialPort.New with portIsOpen := true } : SerialPort) rfl [2]
    (fun _ => ((0 : Nat), some (SPError.transport 9)))⟩

/-- C8 (amended): on an open handle `Println` forwards to the transport
exactly the string followed by the hard-coded pair CR (13) LF (10),
regardless of the configured end-of-line byte — changing the configured
end-of-line byte with `EOL` does not change what `Println` sends. -/
theorem C8_amended (sp : SerialPort) (hopen : sp.portIsOpen = true)
    (str : List Nat) (wr : List Nat → Nat × Option SPError) (c : Nat) :
    sp.Println str wr = (none, [TransportCall.write (str ++ [13, 10])]) ∧
    (sp.EOL c).Println str wr = (none, [TransportCall.write (str ++ [13, 10])]) := by
  simp [SerialPort.Println, SerialPort.Print, SerialPort.EOL, hopen]

/-- C8 (counterexample to the claim as stated): with the end-of-line
byte configured to 9 (TAB), `Println` of [120] sends [120, 13, 10] —
carriage return plus the hard-coded newline — not [120, 13, 9] as the
claim (carriage return plus the configured end-of-line byte) requires. -/
theorem C8_counterexample :
    ({ SerialPort.New with portIsOpen := true, eol := 9 } : SerialPort).eol = 9 ∧
    ({ SerialPort.New with portIsOpen := true, eol := 9 } : SerialPort).Println [120]
        (fun d => (d.length, none))
      = (none, [TransportCall.write [120, 13, 10]]) ∧
    [120, 13, 10] ≠ [120, 13, 9] :=
  ⟨rfl, rfl, by decide⟩

/-- C8 witness: the amended statement evaluated on an open handle,
including after reconfiguring the end-of-line byte to 9. -/
theorem C8_witness :
    ({ SerialPort.New with portIsOpen := true } : SerialPort).portIsOpen = true ∧
    ({ SerialPort.New with portIsOpen := true } : SerialPort).Println [120]
        (fun d => (d.length, none))
      = (none, [TransportCall.write ([120] ++ [13, 10])]) ∧
    (({ SerialPort.New with portIsOpen := true } : SerialPort).EOL 9).Println [120]
        (fun d => (d.length, none))
      = (none, [TransportCall.write ([120] ++ [13, 10])]) :=
  ⟨rfl, (C8_amended ({ SerialPort.New with portIsOpen := true } : SerialPort) rfl [120]
      (fun d => (d.length, none)) 9).1,
    (C8_amended ({ SerialPort.New with portIsOpen := true } : SerialPort) rfl [120]
      (fun d => (d.length, none)) 9).2⟩

/-- C9 (code bug): the Reader Loop checks the open flag immediately
before each send, but the check and the send are not atomic, so a legal
interleaving exists — the guard reads the flag while still open, then
`Close` clears the flag and closes the relay channel, then the pending
send executes — in which the Reader Loop sends on the channel AFTER it
has been closed (a send-on-closed-channel panic in Go), contradicting
the claim that this never happens in any execution. -/
theorem C9_theorem :
    isInterleaving [REv.rcheck, REv.cflag, REv.cclose, REv.rsend] = true ∧
    (raceRun raceInit [REv.rcheck, REv.cflag, REv.cclose, REv.rsend]).sentOnClosed
      = true :=
  ⟨by decide, by decide⟩

/-- C10 (confirmed): a freshly constructed handle reports 256 available
bytes, because `New` pre-fills the receive buffer with 256 zero bytes; a
successful `Open` resets the buffer so `Available` returns 0, while a
failed `Open` leaves the pre-filled buffer in place. -/
theorem C10_theorem :
    SerialPort.New.Available = 256 ∧
    SerialPort.New.Available ≠ 0 ∧
    (∀ name baud,
      (SerialPort.New.Open name baud (Except.ok ())).2.Available = 0) ∧
    (∀ name baud e,
      (SerialPort.New.Open name baud (Except.error e)).2.Available = 256) := by
  refine ⟨by decide, by decide, fun name baud => rfl, fun name baud e => ?_⟩
  simp [SerialPort.Open, SerialPort.New, SerialPort.Available]
